import Mathlib

/-!
Verification of the Intense-Notes study-organizer application.

The definitions below are shallow embeddings of the functions and reactive
state transitions found in `src/App.jsx` and the two serverless API handlers
(`api/flashcards.js` and the summarize handler).  JavaScript `Date` values are
modelled as integer day numbers (days since 1970-01-01) via the standard
civil-calendar conversion; JavaScript strings are modelled as Lean `String`s;
nullable fields are modelled with `Option`.  The file is organized as
definitions first, then the theorems about them.
-/

namespace IntenseNotes

/-! ## Calendar helpers (`buildMonthGrid`, App.jsx lines 42-54)

A JS `Date` is modelled by its day number (days since the epoch 1970-01-01).
`daysFromCivil` is the usual civil-calendar-to-day-number conversion;
`jsMakeDay y m d` models `new Date(y, m, d)` with JS's 0-based months and its
normalization of out-of-range month/day values.  `weekday` models
`Date.getDay()` (Sunday = 0): the epoch was a Thursday, hence the `+ 4`. -/

def daysFromCivil (y m d : Int) : Int :=
  let y2 := if m ≤ 2 then y - 1 else y
  let era := y2 / 400
  let yoe := y2 - era * 400
  let mp := (m + 9) % 12
  let doy := (153 * mp + 2) / 5 + d - 1
  let doe := yoe * 365 + yoe / 4 - yoe / 100 + doy
  era * 146097 + doe - 719468

def jsMakeDay (y m d : Int) : Int :=
  daysFromCivil (y + m / 12) (m % 12 + 1) 1 + (d - 1)

def weekday (t : Int) : Int := (t + 4) % 7

/-- Models `buildMonthGrid(date)`: take the first of the month (`first`), step back to
the Sunday on or before it (`start`, via `first.getDate() - startDow` where
`startDow = first.getDay()`), and push 42 consecutive days (`start + i` for
`i = 0..41`).  `y` is the calendar year and `m` the 0-based month of the
reference date. -/
def buildMonthGrid (y m : Int) : List Int :=
  (List.range 42).map
    (fun (i : Nat) => (jsMakeDay y m 1 - weekday (jsMakeDay y m 1)) + (i : Int))

/-! ## Note persistence (`createNote` / `saveNote`, App.jsx lines 283-326)

`saveNote` writes `{title: draftTitle.trim() || "Untitled", className:
draftClass.trim(), body: draftBody, updatedAt: serverTimestamp()}` with merge;
`createNote` writes `{title: "New Note", className: "", body: "", pinned:
false, ...}`.  We model the written field payloads. -/

structure DraftFields where
  title : String
  className : String
  body : String
  deriving DecidableEq, Repr

structure NotePayload where
  title : String
  className : String
  body : String
  deriving DecidableEq, Repr

/-- Models `String.prototype.trim()`: strip leading and trailing whitespace,
modelled character-wise. -/
def jsTrim (s : String) : String :=
  ⟨((s.data.dropWhile Char.isWhitespace).reverse.dropWhile
      Char.isWhitespace).reverse⟩

/-- Models `draftTitle.trim() || "Untitled"`: the empty string is falsy in JS. -/
def savedTitle (t : String) : String :=
  if jsTrim t = "" then "Untitled" else jsTrim t

def saveNotePayload (d : DraftFields) : NotePayload :=
  { title := savedTitle d.title, className := jsTrim d.className, body := d.body }

def createNotePayload : NotePayload :=
  { title := "New Note", className := "", body := "" }

/-! ## Summarize (`summarize`, App.jsx lines 415-432)

On an ok response the summary is appended to the draft body between literal
markers; a non-ok response, a network error, or a JSON-decode failure all
throw into the catch block, which alerts and leaves `draftBody` untouched.
The `Bool` in the result is `true` iff the operation succeeded (no alert). -/

inductive FetchSummary where
  | netError
  | httpError (status : Nat) (body : String)
  | ok (summary : String)
  deriving DecidableEq, Repr

def summarizeMarkerPre : String := "\n\n=== AI SUMMARY ===\n"

def summarizeMarkerPost : String := "\n=== /SUMMARY ===\n"

def summarize (draftBody : String) : FetchSummary → String × Bool
  | .ok s => (draftBody ++ summarizeMarkerPre ++ s ++ summarizeMarkerPost, true)
  | .netError => (draftBody, false)
  | .httpError _ _ => (draftBody, false)

/-! ## Notes snapshot callback (App.jsx lines 145-149)

`setActiveNoteId((prev) => prev ?? list[0]?.id ?? null)`. -/

structure NoteRec where
  id : Nat
  title : String
  className : String
  body : String
  deriving DecidableEq, Repr

def onNotesSnapshot (prev : Option Nat) (list : List NoteRec) : Option Nat :=
  match prev with
  | some p => some p
  | none =>
    match list.head? with
    | some n => some n.id
    | none => none

/-! ## Study mode (`startStudy`/`nextCard`/`prevCard`, App.jsx lines 504-525)

Indices are JS numbers, modelled as `Int`; the deck length is a `Nat`. -/

def startStudy (deckLen : Nat) (i : Int) : Int :=
  if deckLen = 0 then i else 0

def nextCard (deckLen : Nat) (i : Int) : Int :=
  min (i + 1) (max 0 ((deckLen : Int) - 1))

def prevCard (i : Int) : Int := max (i - 1) 0

inductive StudyOp where
  | next
  | prev
  deriving DecidableEq, Repr

def studyStep (deckLen : Nat) (i : Int) : StudyOp → Int
  | .next => nextCard deckLen i
  | .prev => prevCard i

/-- Index after starting study (at index 0) and applying a sequence of
next/prev card operations. -/
def runStudy (deckLen : Nat) (ops : List StudyOp) : Int :=
  ops.foldl (studyStep deckLen) 0

/-! ## Flashcard generation (`makeFlashcards`)

The live variant (App.jsx lines 446-462) takes `arr.slice(0, 25)` of the
response's `cards` array (after an early return when it is empty) and persists
each card with `question: String(c.question || "").slice(0, 500)` and
`answer: String(c.answer || "").slice(0, 1500)`.  The older variant (second
copy of App.jsx, lines 1312-1324) is identical except that it truncates to
400/1200 and has no empty-array early return.  `jsSlice` models
`String.prototype.slice(0, n)`. -/

structure Candidate where
  question : Option String
  answer : Option String
  deriving DecidableEq, Repr

structure Flashcard where
  noteId : Nat
  noteTitle : String
  question : String
  answer : String
  deriving DecidableEq, Repr

def jsSlice (s : String) (n : Nat) : String := ⟨s.data.take n⟩

def makeFlashcards (noteId : Nat) (draftTitle : String)
    (cards : List Candidate) : List Flashcard :=
  if cards.isEmpty then []
  else
    (cards.take 25).map fun c =>
      { noteId := noteId
        noteTitle := if draftTitle = "" then "Untitled" else draftTitle
        question := jsSlice (c.question.getD "") 500
        answer := jsSlice (c.answer.getD "") 1500 }

def makeFlashcardsOld (noteId : Nat) (draftTitle : String)
    (cards : List Candidate) : List Flashcard :=
  (cards.take 25).map fun c =>
    { noteId := noteId
      noteTitle := if draftTitle = "" then "Untitled" else draftTitle
      question := jsSlice (c.question.getD "") 400
      answer := jsSlice (c.answer.getD "") 1200 }

/-! ## API handlers (`api/flashcards.js` and the summarize handler)

Both handlers reject non-POST requests with 405 before anything else, and a
POST whose `text` is missing, empty (falsy), or shorter than 10 characters
with 400 — in both cases before the OpenAI client is invoked.  The model call
is abstracted as an `Except` parameter (error = thrown SDK/JSON failure,
caught as 500). `calledModel` records whether the language-model call was
reached, and `okPayload` whether a success payload was returned. -/

structure ApiResponse where
  status : Nat
  calledModel : Bool
  okPayload : Bool
  deriving DecidableEq, Repr

/-- Models `!text || text.length < 10` where `text` may be absent (`none`). -/
def textTooShort (text : Option String) : Bool :=
  match text with
  | none => true
  | some t => t = "" || t.length < 10

def summarizeHandler (method : String) (text : Option String)
    (llm : Except Unit String) : ApiResponse :=
  if method ≠ "POST" then ⟨405, false, false⟩
  else if textTooShort text then ⟨400, false, false⟩
  else
    match llm with
    | .ok _ => ⟨200, true, true⟩
    | .error _ => ⟨500, true, false⟩

def flashcardsHandler (method : String) (text : Option String)
    (llm : Except Unit (Option (List Candidate))) : ApiResponse :=
  if method ≠ "POST" then ⟨405, false, false⟩
  else if textTooShort text then ⟨400, false, false⟩
  else
    match llm with
    | .ok _ => ⟨200, true, true⟩
    | .error _ => ⟨500, true, false⟩

/-! ## Tasks-by-date map (`tasksByDate`, App.jsx lines 252-260)

The JS code builds a `Map` in one pass: tasks with a falsy `due` (missing or
empty string) are skipped; otherwise the task is pushed onto the bucket for
its due string, creating the bucket on first sight.  A JS `Map` is an
insertion-ordered association list, modelled here directly;
`insertTask` is `map.get(t.due).push(t)` (with the `map.set(t.due, [])` on a
missing key), and `lookupD` is `map.get(d)` defaulting to the empty list. -/

structure TaskRec where
  title : String
  className : String
  due : String
  done : Bool
  deriving DecidableEq, Repr

def insertTask : List (String × List TaskRec) → TaskRec →
    List (String × List TaskRec)
  | [], t => [(t.due, [t])]
  | (k, l) :: rest, t =>
    if k = t.due then (k, l ++ [t]) :: rest
    else (k, l) :: insertTask rest t

def tasksByDate (ts : List TaskRec) : List (String × List TaskRec) :=
  ts.foldl (fun m t => if t.due = "" then m else insertTask m t) []

def lookupD (m : List (String × List TaskRec)) (d : String) : List TaskRec :=
  match m with
  | [] => []
  | (k, l) :: rest => if k = d then l else lookupD rest d

/-- Every bucket of the map is keyed by a non-empty due string and holds only
tasks with exactly that due string. -/
def BucketsWF (m : List (String × List TaskRec)) : Prop :=
  ∀ k l, (k, l) ∈ m → k ≠ "" ∧ ∀ t ∈ l, t.due = k

def demoTasks : List TaskRec :=
  [ ⟨"hw1", "math", "2025-01-02", false⟩,
    ⟨"hw2", "cs", "2025-01-03", true⟩,
    ⟨"no-due", "cs", "", false⟩,
    ⟨"hw3", "math", "2025-01-02", true⟩ ]

/-! ## Filtered and sorted notes (`filteredNotes`, App.jsx lines 226-249)

`normalize` is the JS helper `s.toLowerCase()`; `noteHay` is the template
string `title className body` joined by single spaces; `containsSubstr`
models `String.prototype.includes`.  The comparator sorts pinned notes first
and then by descending `updatedAt.seconds` (missing or zero seconds count as
0); `Array.prototype.sort` is modelled by the stable `List.mergeSort` over
the comparator's non-strict order. -/

structure Note where
  title : String
  className : String
  body : String
  pinned : Bool
  updatedAtSeconds : Option Nat
  deriving DecidableEq, Repr

/-- Models `String(s || "").toLowerCase()`, character-wise. -/
def normalize (s : String) : String := ⟨s.data.map Char.toLower⟩

def noteHay (n : Note) : String := n.title ++ " " ++ n.className ++ " " ++ n.body

def containsSubstr (s q : String) : Bool :=
  s.data.tails.any (fun t => q.data.isPrefixOf t)

def updSeconds (n : Note) : Nat := n.updatedAtSeconds.getD 0

/-- The filter predicate of `filteredNotes`: folder match (or the "ALL"
sentinel), conjoined with the lowercased-haystack search when the search
string is non-empty. -/
def noteKeep (search cf : String) (n : Note) : Bool :=
  let q := normalize search
  let matchesClass := cf == "ALL" || jsTrim n.className == cf
  if q == "" then matchesClass
  else matchesClass && containsSubstr (normalize (noteHay n)) q

/-- The sort comparator, as a non-strict order: `a` may come before `b` iff
the comparator does not require `b` strictly before `a`. -/
def noteLe (a b : Note) : Bool :=
  if a.pinned != b.pinned then a.pinned
  else decide (updSeconds b ≤ updSeconds a)

def filteredNotes (notes : List Note) (search cf : String) : List Note :=
  (notes.filter (noteKeep search cf)).mergeSort noteLe

/-- The claim's membership condition, spelled as in the spec. -/
def claimKeep (search cf : String) (n : Note) : Prop :=
  (cf = "ALL" ∨ jsTrim n.className = cf) ∧
  (search = "" ∨ containsSubstr (normalize (noteHay n)) (normalize search) = true)

instance claimKeepDecidable (search cf : String) (n : Note) :
    Decidable (claimKeep search cf n) := by
  unfold claimKeep
  exact inferInstance

/-- The claim's ordering: all pinned before all unpinned, and within equal
pinned status non-increasing update time. -/
def claimOrder (a b : Note) : Prop :=
  (a.pinned = true ∧ b.pinned = false) ∨
  (a.pinned = b.pinned ∧ updSeconds b ≤ updSeconds a)

/-! ## Draft editor and autosave (App.jsx lines 167-181 and 297-344)

A small operational model of the React state relevant to the debounced
autosave, for the live variant of App.jsx:

* `draftTitle`/`draftClass`/`draftBody` — the three draft `useState`s;
* `ignoreAutosave` — `ignoreAutosaveRef.current`; `ignoreResetQueued` records
  the `setTimeout(() => ignoreAutosaveRef.current = false, 0)` scheduled by
  the draft-load effect;
* `pending` — the armed 900 ms debounce timer together with the values the
  `saveNote` closure captured when the autosave effect armed it;
* `cleanupArmed` — whether the last run of the autosave effect reached the
  end of its body and therefore registered a cleanup function (an early
  `return` registers none).

`runAutosaveEffect` models one re-run of the autosave `useEffect` after its
dependencies `[draftTitle, draftClass, draftBody]` changed: React first calls
the previously-registered cleanup (which clears the debounce timer), then the
body, which returns early if there is no active note or the ignore guard is
set, and otherwise (re)arms the timer with the current draft values.

`editorStep` models one external event followed by the synchronous React
effect cascade it triggers:

* an edit sets its draft field; if the value actually changed the autosave
  effect re-runs;
* selecting a note re-runs the draft-load effect (when the id changed and the
  note exists): it sets the ignore guard, loads the note's fields into the
  drafts, and queues the 0 ms guard reset; if any draft value changed, the
  autosave effect then re-runs;
* `debounceFire` is the 900 ms timer: `saveNote(false)` writes the captured
  draft values (title trimmed with "Untitled" default, folder trimmed, body
  verbatim) to the captured note id;
* `ignoreReset` is the queued 0 ms timeout clearing the ignore guard. -/

structure SaveClosure where
  noteId : Nat
  title : String
  className : String
  body : String
  deriving DecidableEq, Repr

structure EditorState where
  store : List NoteRec
  activeNoteId : Option Nat
  draftTitle : String
  draftClass : String
  draftBody : String
  ignoreAutosave : Bool
  ignoreResetQueued : Bool
  pending : Option SaveClosure
  cleanupArmed : Bool
  deriving DecidableEq, Repr

/-- The merge-write `saveNote` issues, applied to the mirrored notes list. -/
def applySave (store : List NoteRec) (c : SaveClosure) : List NoteRec :=
  store.map fun n =>
    if n.id = c.noteId then
      { n with
        title := savedTitle c.title
        className := jsTrim c.className
        body := c.body }
    else n

def runAutosaveEffect (st : EditorState) : EditorState :=
  let st1 :=
    if st.cleanupArmed then { st with pending := none, cleanupArmed := false }
    else st
  match st1.activeNoteId with
  | none => st1
  | some nid =>
    if st1.ignoreAutosave then st1
    else
      { st1 with
        pending := some ⟨nid, st1.draftTitle, st1.draftClass, st1.draftBody⟩,
        cleanupArmed := true }

inductive EditorEv where
  | editTitle (s : String)
  | editClass (s : String)
  | editBody (s : String)
  | selectNote (id : Nat)
  | debounceFire
  | ignoreReset
  deriving DecidableEq, Repr

def editorStep (st : EditorState) : EditorEv → EditorState
  | .editTitle s =>
    if s = st.draftTitle then st
    else runAutosaveEffect { st with draftTitle := s }
  | .editClass s =>
    if s = st.draftClass then st
    else runAutosaveEffect { st with draftClass := s }
  | .editBody s =>
    if s = st.draftBody then st
    else runAutosaveEffect { st with draftBody := s }
  | .selectNote id =>
    if st.activeNoteId = some id then st
    else
      let st1 := { st with activeNoteId := some id }
      match st1.store.find? (fun n => n.id == id) with
      | none => st1
      | some n =>
        let st2 :=
          { st1 with
            ignoreAutosave := true, ignoreResetQueued := true,
            draftTitle := n.title, draftClass := n.className,
            draftBody := n.body }
        if n.title = st.draftTitle ∧ n.className = st.draftClass ∧
            n.body = st.draftBody then st2
        else runAutosaveEffect st2
  | .debounceFire =>
    match st.pending with
    | none => st
    | some c => { st with store := applySave st.store c, pending := none }
  | .ignoreReset =>
    if st.ignoreResetQueued then
      { st with ignoreAutosave := false, ignoreResetQueued := false }
    else st

def runEditor (st : EditorState) (evs : List EditorEv) : EditorState :=
  evs.foldl editorStep st

/-- Initial state for the note-switch scenario: note 1 ("A", body "old") is
active with its fields loaded in the draft; note 2 ("B", body "bbb") exists. -/
def c1Start : EditorState :=
  { store := [⟨1, "A", "", "old"⟩, ⟨2, "B", "", "bbb"⟩]
    activeNoteId := some 1
    draftTitle := "A", draftClass := "", draftBody := "old"
    ignoreAutosave := false, ignoreResetQueued := false
    pending := none, cleanupArmed := false }

/-- The scenario of the claim: edit note 1's body, select note 2 before the
quiet period elapses (the 0 ms guard reset and the 900 ms timer slot both
fire after the switch). -/
def c1Final : EditorState :=
  runEditor c1Start
    [.editBody "edited", .selectNote 2, .ignoreReset, .debounceFire]

/-! ## Theorems -/

theorem buildMonthGrid_getElem (y m : Int) (i : Nat) (h : i < 42) :
    (buildMonthGrid y m)[i]? =
      some (jsMakeDay y m 1 - weekday (jsMakeDay y m 1) + (i : Int)) := by
  unfold buildMonthGrid
  rw [List.getElem?_map, List.getElem?_range h]
  rfl

/-- C2: for every reference month, `buildMonthGrid` returns exactly 42
consecutive day cells; the first cell is the Sunday on or before the first of
the month (its weekday is 0, it is at most 6 days before the first); and the
cell holding the first of the month sits at index `weekday(first)` (< 7). -/
theorem C2_buildMonthGrid_spec (y m : Int) :
    (buildMonthGrid y m).length = 42 ∧
    (buildMonthGrid y m)[0]? =
      some (jsMakeDay y m 1 - weekday (jsMakeDay y m 1)) ∧
    weekday (jsMakeDay y m 1 - weekday (jsMakeDay y m 1)) = 0 ∧
    jsMakeDay y m 1 - weekday (jsMakeDay y m 1) ≤ jsMakeDay y m 1 ∧
    jsMakeDay y m 1 - (jsMakeDay y m 1 - weekday (jsMakeDay y m 1)) < 7 ∧
    List.Chain' (fun a b => b = a + 1) (buildMonthGrid y m) ∧
    (weekday (jsMakeDay y m 1)).toNat < 7 ∧
    (buildMonthGrid y m)[(weekday (jsMakeDay y m 1)).toNat]? =
      some (jsMakeDay y m 1) := by
  refine ⟨?_, ?_, ?_, ?_, ?_, ?_, ?_, ?_⟩
  · unfold buildMonthGrid
    rw [List.length_map, List.length_range]
  · have := buildMonthGrid_getElem y m 0 (by norm_num)
    simpa using this
  · simp only [weekday]
    omega
  · simp only [weekday]
    omega
  · simp only [weekday]
    omega
  · unfold buildMonthGrid
    rw [List.chain'_map]
    refine (List.chain'_range_succ _ 41).mpr ?_
    intro k hk
    push_cast
    ring
  · simp only [weekday]
    omega
  · have hlt : (weekday (jsMakeDay y m 1)).toNat < 42 := by
      simp only [weekday]; omega
    rw [buildMonthGrid_getElem y m _ hlt]
    congr 1
    simp only [weekday]
    omega

/-- C5: a saved note's title is the trimmed draft title, with "Untitled"
substituted exactly when the trimmed title is empty (so it is never empty);
the folder label is persisted trimmed; the body is persisted as typed; and a
freshly created note has title "New Note", folder "", body "". -/
theorem C5_saveNote_spec :
    createNotePayload.title = "New Note" ∧
    createNotePayload.className = "" ∧
    createNotePayload.body = "" ∧
    ∀ d : DraftFields,
      (saveNotePayload d).title =
        (if jsTrim d.title = "" then "Untitled" else jsTrim d.title) ∧
      (saveNotePayload d).title ≠ "" ∧
      (saveNotePayload d).className = jsTrim d.className ∧
      (saveNotePayload d).body = d.body := by
  refine ⟨rfl, rfl, rfl, fun d => ⟨rfl, ?_, rfl, rfl⟩⟩
  simp only [saveNotePayload, savedTitle]
  split
  · decide
  · assumption

/-- C6: summarize is atomic on the draft: every outcome either leaves the
draft body unchanged and reports failure, or the response was successful and
the returned summary is appended between the literal
`=== AI SUMMARY ===` / `=== /SUMMARY ===` markers. -/
theorem C6_summarize_atomic (body : String) (r : FetchSummary) :
    ((summarize body r).1 = body ∧ (summarize body r).2 = false) ∨
    (∃ s, r = FetchSummary.ok s ∧
      summarize body r =
        (body ++ summarizeMarkerPre ++ s ++ summarizeMarkerPost, true)) := by
  cases r with
  | netError => exact Or.inl ⟨rfl, rfl⟩
  | httpError st b => exact Or.inl ⟨rfl, rfl⟩
  | ok s => exact Or.inr ⟨s, rfl, rfl⟩

/-- C7: on a notes snapshot, if no note is active the first note of the
snapshot becomes active (none if empty); an already-active selection is
preserved unchanged for every snapshot, whatever the note's position. -/
theorem C7_snapshot_selection :
    (∀ n : NoteRec, ∀ list : List NoteRec,
      onNotesSnapshot none (n :: list) = some n.id) ∧
    onNotesSnapshot none [] = none ∧
    (∀ a : Nat, ∀ list : List NoteRec, onNotesSnapshot (some a) list = some a) := by
  exact ⟨fun n list => rfl, rfl, fun a list => rfl⟩

theorem studyStep_bounds (deckLen : Nat) (i : Int) (op : StudyOp)
    (h0 : 0 ≤ i) (h1 : i ≤ max 0 ((deckLen : Int) - 1)) :
    0 ≤ studyStep deckLen i op ∧
      studyStep deckLen i op ≤ max 0 ((deckLen : Int) - 1) := by
  cases op <;> simp only [studyStep, nextCard, prevCard] <;> omega

theorem runStudy_bounds_aux (deckLen : Nat) (ops : List StudyOp) :
    ∀ i : Int, 0 ≤ i → i ≤ max 0 ((deckLen : Int) - 1) →
      0 ≤ ops.foldl (studyStep deckLen) i ∧
        ops.foldl (studyStep deckLen) i ≤ max 0 ((deckLen : Int) - 1) := by
  induction ops with
  | nil => exact fun i h0 h1 => ⟨h0, h1⟩
  | cons op rest ih =>
    intro i h0 h1
    have h := studyStep_bounds deckLen i op h0 h1
    exact ih _ h.1 h.2

/-- C10: the study index is always a valid deck position: starting study on a
nonempty deck sets the index to 0, `prevCard` at 0 stays at 0, `nextCard` at
the last card stays at the last index, and after any sequence of
next/prev operations the index stays within `[0, max 0 (deckLength - 1)]`. -/
theorem C10_study_index_bounds (len : Nat) (i : Int) (ops : List StudyOp) :
    startStudy (len + 1) i = 0 ∧
    prevCard 0 = 0 ∧
    nextCard (len + 1) (len : Int) = (len : Int) ∧
    0 ≤ runStudy len ops ∧
    runStudy len ops ≤ max 0 ((len : Int) - 1) := by
  refine ⟨rfl, rfl, ?_, ?_, ?_⟩
  · simp only [nextCard]
    push_cast
    omega
  · exact (runStudy_bounds_aux len ops 0 le_rfl (le_max_left 0 _)).1
  · exact (runStudy_bounds_aux len ops 0 le_rfl (le_max_left 0 _)).2

theorem length_jsSlice (s : String) (n : Nat) : (jsSlice s n).length ≤ n := by
  show (s.data.take n).length ≤ n
  rw [List.length_take]
  omega

/-- C3: for a flashcard-generation response with `N` candidate cards, both
variants of `makeFlashcards` persist exactly `min N 25` flashcards, each with
question truncated to at most 500 characters and answer truncated to at most
1500 characters. -/
theorem C3_makeFlashcards_spec (noteId : Nat) (draftTitle : String)
    (cards : List Candidate) :
    (makeFlashcards noteId draftTitle cards).length = min cards.length 25 ∧
    (∀ f ∈ makeFlashcards noteId draftTitle cards,
      f.question.length ≤ 500 ∧ f.answer.length ≤ 1500) ∧
    (makeFlashcardsOld noteId draftTitle cards).length = min cards.length 25 ∧
    (∀ f ∈ makeFlashcardsOld noteId draftTitle cards,
      f.question.length ≤ 500 ∧ f.answer.length ≤ 1500) := by
  refine ⟨?_, ?_, ?_, ?_⟩
  · unfold makeFlashcards
    split
    · rename_i h
      rw [List.isEmpty_iff] at h
      subst h
      rfl
    · rw [List.length_map, List.length_take, Nat.min_comm]
  · intro f hf
    unfold makeFlashcards at hf
    split at hf
    · simp at hf
    · obtain ⟨c, _, rfl⟩ := List.mem_map.mp hf
      exact ⟨length_jsSlice _ _, length_jsSlice _ _⟩
  · unfold makeFlashcardsOld
    rw [List.length_map, List.length_take, Nat.min_comm]
  · intro f hf
    obtain ⟨c, _, rfl⟩ := List.mem_map.mp hf
    constructor
    · exact le_trans (length_jsSlice _ _) (by norm_num)
    · exact le_trans (length_jsSlice _ _) (by norm_num)

/-- Witness for C3: a 30-card response yields exactly 25 persisted cards, and
a concrete persisted card respects both truncation bounds. -/
theorem C3_makeFlashcards_witness :
    (makeFlashcards 7 "T" (List.replicate 30 ⟨some "q", some "a"⟩)).length =
      min 30 25 ∧
    (⟨7, "T", "q", "a"⟩ : Flashcard).question.length ≤ 500 ∧
    (⟨7, "T", "q", "a"⟩ : Flashcard).answer.length ≤ 1500 := by
  refine ⟨?_, ?_⟩
  · exact (C3_makeFlashcards_spec 7 "T" (List.replicate 30 ⟨some "q", some "a"⟩)).1
  · exact (C3_makeFlashcards_spec 7 "T"
      (List.replicate 30 ⟨some "q", some "a"⟩)).2.1 ⟨7, "T", "q", "a"⟩ (by decide)

/-- C9: both API handlers validate before doing any work: a non-POST request
gets 405, and a POST with missing or <10-character text gets 400; in all
these cases the language model is not called and no success payload is
returned. -/
theorem C9_handlers_validate (method : String) (text : Option String)
    (llm1 : Except Unit String) (llm2 : Except Unit (Option (List Candidate))) :
    (method ≠ "POST" →
      summarizeHandler method text llm1 = ⟨405, false, false⟩ ∧
      flashcardsHandler method text llm2 = ⟨405, false, false⟩) ∧
    (∀ t, text = some t → t.length < 10 →
      summarizeHandler "POST" text llm1 = ⟨400, false, false⟩ ∧
      flashcardsHandler "POST" text llm2 = ⟨400, false, false⟩) ∧
    (summarizeHandler "POST" none llm1 = ⟨400, false, false⟩ ∧
      flashcardsHandler "POST" none llm2 = ⟨400, false, false⟩) := by
  refine ⟨?_, ?_, ?_, ?_⟩
  · intro h
    constructor <;> simp [summarizeHandler, flashcardsHandler, h]
  · intro t ht hlen
    subst ht
    have hshort : textTooShort (some t) = true := by
      simp [textTooShort]
      omega
    constructor <;> simp [summarizeHandler, flashcardsHandler, hshort]
  · simp [summarizeHandler, textTooShort]
  · simp [flashcardsHandler, textTooShort]

/-- Witness for C9: a GET request gets 405 and a short POST gets 400, with no
model call on either handler. -/
theorem C9_handlers_validate_witness :
    (summarizeHandler "GET" (some "plenty of text here") (Except.ok "s") =
        ⟨405, false, false⟩ ∧
      flashcardsHandler "GET" (some "plenty of text here") (Except.ok none) =
        ⟨405, false, false⟩) ∧
    (summarizeHandler "POST" (some "short") (Except.ok "s") =
        ⟨400, false, false⟩ ∧
      flashcardsHandler "POST" (some "short") (Except.ok none) =
        ⟨400, false, false⟩) := by
  constructor
  · exact (C9_handlers_validate "GET" (some "plenty of text here")
      (Except.ok "s") (Except.ok none)).1 (by decide)
  · exact (C9_handlers_validate "POST" (some "short")
      (Except.ok "s") (Except.ok none)).2.1 "short" rfl (by decide)

theorem lookupD_insertTask_self (m : List (String × List TaskRec))
    (t : TaskRec) : lookupD (insertTask m t) t.due = lookupD m t.due ++ [t] := by
  induction m with
  | nil => simp [insertTask, lookupD]
  | cons p rest ih =>
    obtain ⟨k, l⟩ := p
    by_cases hk : k = t.due
    · subst hk
      simp [insertTask, lookupD]
    · simp [insertTask, lookupD, hk, ih]

theorem lookupD_insertTask_other (m : List (String × List TaskRec))
    (t : TaskRec) (d : String) (h : d ≠ t.due) :
    lookupD (insertTask m t) d = lookupD m d := by
  have h' : t.due ≠ d := fun he => h he.symm
  induction m with
  | nil => simp [insertTask, lookupD, h']
  | cons p rest ih =>
    obtain ⟨k, l⟩ := p
    by_cases hk : k = t.due
    · subst hk
      simp [insertTask, lookupD, h']
    · by_cases hd : k = d
      · subst hd
        simp [insertTask, lookupD, hk]
      · simp [insertTask, lookupD, hk, hd, ih]

theorem tasksByDate_foldl_lookup (d : String) (hd : d ≠ "") :
    ∀ (ts : List TaskRec) (m : List (String × List TaskRec)),
      lookupD (ts.foldl (fun m t => if t.due = "" then m else insertTask m t) m) d
        = lookupD m d ++ ts.filter (fun t => t.due == d) := by
  intro ts
  induction ts with
  | nil => intro m; simp
  | cons t rest ih =>
    intro m
    rw [List.foldl_cons, List.filter_cons, ih]
    by_cases hdue : t.due = ""
    · have hne : (t.due == d) = false := by
        refine beq_eq_false_iff_ne.mpr ?_
        rw [hdue]
        exact fun he => hd he.symm
      rw [if_pos hdue, hne]
      simp
    · by_cases heq : t.due = d
      · subst heq
        rw [if_neg hdue]
        simp [lookupD_insertTask_self, List.append_assoc]
      · have hne : (t.due == d) = false := beq_eq_false_iff_ne.mpr heq
        rw [if_neg hdue, hne,
          lookupD_insertTask_other m t d (fun he => heq he.symm)]
        simp

theorem insertTask_WF :
    ∀ (m : List (String × List TaskRec)) (t : TaskRec),
      BucketsWF m → t.due ≠ "" → BucketsWF (insertTask m t) := by
  intro m t
  induction m with
  | nil =>
    intro _ ht k l hkl
    simp only [insertTask, List.mem_singleton] at hkl
    obtain ⟨rfl, rfl⟩ : k = t.due ∧ l = [t] := by simpa using hkl
    exact ⟨ht, by simp⟩
  | cons p rest ih =>
    obtain ⟨k0, l0⟩ := p
    intro hm ht
    have hrest : BucketsWF rest :=
      fun k l hkl => hm k l (List.mem_cons_of_mem _ hkl)
    have hhead := hm k0 l0 (List.mem_cons_self _ _)
    intro k l hkl
    by_cases hk : k0 = t.due
    · subst hk
      rw [insertTask, if_pos rfl] at hkl
      rcases List.mem_cons.mp hkl with h | h
      · obtain ⟨rfl, rfl⟩ : k = t.due ∧ l = l0 ++ [t] := by simpa using h
        refine ⟨hhead.1, ?_⟩
        intro u hu
        rcases List.mem_append.mp hu with hu | hu
        · exact hhead.2 u hu
        · simp only [List.mem_singleton] at hu
          subst hu
          rfl
      · exact hrest k l h
    · rw [insertTask, if_neg hk] at hkl
      rcases List.mem_cons.mp hkl with h | h
      · obtain ⟨rfl, rfl⟩ : k = k0 ∧ l = l0 := by simpa using h
        exact hhead
      · exact ih hrest ht k l h

theorem tasksByDate_foldl_WF :
    ∀ (ts : List TaskRec) (m : List (String × List TaskRec)),
      BucketsWF m →
      BucketsWF (ts.foldl (fun m t => if t.due = "" then m else insertTask m t) m) := by
  intro ts
  induction ts with
  | nil => exact fun m hm => hm
  | cons t rest ih =>
    intro m hm
    rw [List.foldl_cons]
    by_cases hdue : t.due = ""
    · rw [if_pos hdue]
      exact ih m hm
    · rw [if_neg hdue]
      exact ih _ (insertTask_WF m t hm hdue)

/-- C8: for every task list and every non-empty due-date string `d`, the
bucket of `tasksByDate` at `d` is exactly the tasks whose due field equals
`d`, in task-list order; and every bucket is keyed by a non-empty due string
and holds only tasks with that due string, so tasks with no due date appear
under no key. -/
theorem C8_tasksByDate_spec (ts : List TaskRec) (d : String) (hd : d ≠ "") :
    lookupD (tasksByDate ts) d = ts.filter (fun t => t.due == d) ∧
    BucketsWF (tasksByDate ts) := by
  constructor
  · have := tasksByDate_foldl_lookup d hd ts []
    simpa [tasksByDate, lookupD] using this
  · exact tasksByDate_foldl_WF ts [] (by intro k l h; simp at h)

/-- Witness for C8, at a concrete task list and due date. -/
theorem C8_tasksByDate_witness :
    ("2025-01-02" : String) ≠ "" ∧
    (lookupD (tasksByDate demoTasks) "2025-01-02" =
        demoTasks.filter (fun t => t.due == "2025-01-02") ∧
      BucketsWF (tasksByDate demoTasks)) :=
  ⟨by decide, C8_tasksByDate_spec demoTasks "2025-01-02" (by decide)⟩

theorem containsSubstr_nil (s : String) : containsSubstr s "" = true := by
  unfold containsSubstr
  rw [List.any_eq_true]
  exact ⟨[], (List.mem_tails _ _).mpr List.nil_suffix, rfl⟩

theorem noteKeep_iff_claimKeep (search cf : String) (n : Note) :
    noteKeep search cf n = true ↔ claimKeep search cf n := by
  unfold noteKeep claimKeep
  by_cases hq : normalize search = ""
  · simp [hq, containsSubstr_nil]
  · have hsearch : search ≠ "" := by
      intro h
      exact hq (by rw [h]; rfl)
    simp [hq, hsearch]

theorem noteLe_total (a b : Note) : (noteLe a b || noteLe b a) = true := by
  unfold noteLe
  cases ha : a.pinned <;> cases hb : b.pinned <;> simp [ha, hb] <;> omega

theorem noteLe_trans (a b c : Note) (hab : noteLe a b = true)
    (hbc : noteLe b c = true) : noteLe a c = true := by
  unfold noteLe at *
  cases ha : a.pinned <;> cases hb : b.pinned <;> cases hc : c.pinned <;>
    simp_all <;> omega

theorem claimOrder_of_noteLe (a b : Note) (h : noteLe a b = true) :
    claimOrder a b := by
  unfold noteLe at h
  unfold claimOrder
  cases ha : a.pinned <;> cases hb : b.pinned <;> simp_all

/-- C4: for every note list, folder filter and search string, the filtered
notes view is a permutation of exactly the notes whose trimmed folder label
equals the filter (or all notes under the "ALL" sentinel) and, when the
search string is non-empty, whose lowercased title-folder-body haystack
contains the lowercased search string; and it is sorted with pinned notes
before unpinned notes and, within equal pinned status, by non-increasing
update time (missing update times counting as oldest, i.e. 0). -/
theorem C4_filteredNotes_spec (notes : List Note) (search cf : String) :
    (filteredNotes notes search cf).Perm
      (notes.filter fun n => decide (claimKeep search cf n)) ∧
    (filteredNotes notes search cf).Pairwise claimOrder := by
  constructor
  · have hpt : ∀ n ∈ notes,
        noteKeep search cf n = decide (claimKeep search cf n) := by
      intro n _
      by_cases h : claimKeep search cf n
      · rw [decide_eq_true h]
        exact (noteKeep_iff_claimKeep search cf n).mpr h
      · rw [decide_eq_false h]
        exact Bool.eq_false_iff.mpr
          (fun hc => h ((noteKeep_iff_claimKeep search cf n).mp hc))
    unfold filteredNotes
    rw [List.filter_congr hpt]
    exact List.mergeSort_perm _ _
  · unfold filteredNotes
    exact (List.sorted_mergeSort noteLe_trans noteLe_total
      (notes.filter (noteKeep search cf))).imp
      (fun h => claimOrder_of_noteLe _ _ h)

/-- An edit of the draft body while a note is active and the ignore guard is
clear re-runs the autosave effect, which (re)arms the debounce timer with a
closure over the current note id and the post-edit draft values. -/
theorem editorStep_editBody_arms (st : EditorState) (a : Nat) (s : String)
    (ha : st.activeNoteId = some a) (hi : st.ignoreAutosave = false)
    (hs : s ≠ st.draftBody) :
    editorStep st (.editBody s) =
      { st with
        draftBody := s
        pending := some ⟨a, st.draftTitle, st.draftClass, s⟩
        cleanupArmed := true } := by
  obtain ⟨store, act, dt, dc, db, ig, irq, pd, ca⟩ := st
  dsimp only at ha hi hs ⊢
  subst ha hi
  cases ca <;> simp [editorStep, runAutosaveEffect, hs]

/-- Selecting a different existing note whose fields differ from the current
draft reloads the draft, which re-runs the autosave effect: its cleanup
clears the pending debounce timer and, because the ignore guard was just set
by the draft load, no new timer is armed. -/
theorem editorStep_selectNote_clears (st : EditorState) (id : Nat)
    (n : NoteRec)
    (hneq : st.activeNoteId ≠ some id)
    (hfind : st.store.find? (fun m => m.id == id) = some n)
    (hca : st.cleanupArmed = true)
    (hdiff : ¬(n.title = st.draftTitle ∧ n.className = st.draftClass ∧
      n.body = st.draftBody)) :
    editorStep st (.selectNote id) =
      { st with
        activeNoteId := some id
        draftTitle := n.title
        draftClass := n.className
        draftBody := n.body
        ignoreAutosave := true
        ignoreResetQueued := true
        pending := none
        cleanupArmed := false } := by
  obtain ⟨store, act, dt, dc, db, ig, irq, pd, ca⟩ := st
  dsimp only at hneq hfind hca hdiff ⊢
  subst hca
  simp [editorStep, runAutosaveEffect, hneq, hfind, hdiff]

/-- C1 (amended): editing the active note's body and then selecting a
different existing note (whose stored fields differ from the post-edit draft)
before the quiet period elapses CANCELS the pending debounced save: after the
switch no save is pending, the store is unchanged, and the timer slot firing
afterwards still changes nothing — whereas without the switch the same timer
would have written the edited draft to the old note's record. -/
theorem C1_switch_drops_pending_save (st : EditorState) (a id : Nat)
    (s : String) (n : NoteRec)
    (ha : st.activeNoteId = some a)
    (hneq : a ≠ id)
    (hi : st.ignoreAutosave = false)
    (hfind : st.store.find? (fun m => m.id == id) = some n)
    (hs : s ≠ st.draftBody)
    (hdiff : ¬(n.title = st.draftTitle ∧ n.className = st.draftClass ∧
      n.body = s)) :
    (editorStep (editorStep st (.editBody s)) (.selectNote id)).pending =
      none ∧
    (editorStep (editorStep st (.editBody s)) (.selectNote id)).store =
      st.store ∧
    (editorStep (editorStep (editorStep st (.editBody s)) (.selectNote id))
        .debounceFire).store = st.store ∧
    (editorStep (editorStep st (.editBody s)) .debounceFire).store =
      applySave st.store ⟨a, st.draftTitle, st.draftClass, s⟩ := by
  have e1 := editorStep_editBody_arms st a s ha hi hs
  have e2 := editorStep_selectNote_clears
    { st with
      draftBody := s
      pending := some ⟨a, st.draftTitle, st.draftClass, s⟩
      cleanupArmed := true }
    id n
    (by show st.activeNoteId ≠ some id
        rw [ha]
        simp [hneq])
    hfind
    rfl
    hdiff
  refine ⟨?_, ?_, ?_, ?_⟩
  · rw [e1, e2]
  · rw [e1, e2]
  · rw [e1, e2]
    rfl
  · rw [e1]
    rfl

/-- C1 counterexample: in the concrete scenario of the claim — note 1 active
with body "old", its body edited to "edited", then note 2 selected before the
quiet period elapses — note 1's remote record still holds "old" after both
the 0 ms guard reset and the 900 ms timer slot, and no save is pending: the
edited body was never persisted, refuting the claim. -/
theorem C1_counterexample :
    (c1Final.store.find? (fun n => n.id == 1)).map (fun n => n.body) =
      some "old" ∧
    c1Final.pending = none ∧
    ("old" : String) ≠ "edited" :=
  ⟨rfl, rfl, by decide⟩

/-- Witness for the amended C1 theorem at the concrete scenario. -/
theorem C1_switch_drops_witness :
    (c1Start.activeNoteId = some 1 ∧ (1 : Nat) ≠ 2 ∧
      c1Start.ignoreAutosave = false ∧
      c1Start.store.find? (fun m => m.id == 2) = some ⟨2, "B", "", "bbb"⟩ ∧
      ("edited" : String) ≠ c1Start.draftBody ∧
      ¬(("B" : String) = c1Start.draftTitle ∧
        ("" : String) = c1Start.draftClass ∧ ("bbb" : String) = "edited")) ∧
    ((editorStep (editorStep c1Start (.editBody "edited"))
        (.selectNote 2)).pending = none ∧
      (editorStep (editorStep c1Start (.editBody "edited"))
        (.selectNote 2)).store = c1Start.store ∧
      (editorStep (editorStep (editorStep c1Start (.editBody "edited"))
          (.selectNote 2)) .debounceFire).store = c1Start.store ∧
      (editorStep (editorStep c1Start (.editBody "edited"))
          .debounceFire).store =
        applySave c1Start.store ⟨1, c1Start.draftTitle, c1Start.draftClass,
          "edited"⟩) :=
  ⟨⟨rfl, by decide, rfl, rfl, by decide, by decide⟩,
    C1_switch_drops_pending_save c1Start 1 2 "edited" ⟨2, "B", "", "bbb"⟩
      rfl (by decide) rfl rfl (by decide) (by decide)⟩

end IntenseNotes
